import Mathlib

/-!
Verification of the rink-runtime repository: a shallow embedding of
`src/path.rs`, `src/runtime/container.rs`, `src/runtime/control_command.rs`,
`src/runtime/mod.rs` and `src/runtime_graph.rs`, together with theorems
settling the specification claims about paths, container flag packing,
wire decoding and graph resolution.

Rust strings are modelled as `List Char`; `usize` values as `Nat` with the
64-bit bound made explicit where the code depends on it; `Vec` as `List`;
`HashMap` as an association list; fallible conversions as `Except`.
-/

namespace RinkRuntime

/-! ## Path fragments (src/path.rs lines 5 to 20) -/

/-- One addressing step, embedding `enum Fragment` from src/path.rs:
`Index(usize)`, `Name(String)`, `Parent`.  The Rust type derives
`PartialEq`, `Eq` and `Hash`; the derived equality is structural and is
modelled by Lean's propositional (and decidable) equality on this type. -/
inductive Fragment where
  | index (n : Nat)
  | name (s : List Char)
  | parent
deriving DecidableEq

/-- Largest value of the 64-bit Rust `usize` type. -/
def USIZE_MAX : Nat := 2 ^ 64 - 1

/-- Numeric value of a list of ASCII decimal digit characters, most
significant first (the accumulation performed by Rust's integer parser). -/
def digitsVal (l : List Char) : Nat :=
  l.foldl (fun a c => 10 * a + (c.toNat - 48)) 0

/-- Digit part of an integer literal: Rust's integer parser strips one
optional leading `+` sign before reading digits. -/
def rustUsizeBody (t : List Char) : List Char :=
  match t with
  | '+' :: rest => rest
  | _ => t

/-- Embedding of Rust's `str::parse::<usize>` as used at src/path.rs line 58:
it succeeds exactly on an optional leading `+` followed by one or more ASCII
digits whose value fits in `usize`, and fails otherwise (including on
overflow). -/
def rustParseUsize (t : List Char) : Option Nat :=
  if rustUsizeBody t ≠ [] ∧ (rustUsizeBody t).all Char.isDigit = true ∧
      digitsVal (rustUsizeBody t) ≤ USIZE_MAX then
    some (digitsVal (rustUsizeBody t))
  else
    none

/-- Canonical decimal rendering of a natural number, as produced by Rust's
`Display` for `usize` (src/path.rs line 15 writes the index with `{}`).
Structured with explicit fuel so that concrete instances evaluate by `decide`. -/
def natCharsAux : Nat → Nat → List Char → List Char
  | 0, _, acc => acc
  | fuel + 1, n, acc =>
    if n < 10 then Char.ofNat (48 + n) :: acc
    else natCharsAux fuel (n / 10) (Char.ofNat (48 + n % 10) :: acc)

/-- Canonical decimal rendering of a natural number (see `natCharsAux`). -/
def natChars (n : Nat) : List Char := natCharsAux (n + 1) n []

/-- Embedding of `impl fmt::Display for Fragment` (src/path.rs lines 12 to 20):
an index renders as its decimal digits, a name as itself, `Parent` as `^`. -/
def fragmentRender : Fragment → List Char
  | .index n => natChars n
  | .name s => s
  | .parent => ['^']

/-- Data fed to the hasher by the derived `Hash` on `Fragment`
(src/path.rs line 5): the variant discriminant first, then the fields; a
string feeds its character data followed by the `0xFF` terminator byte that
Rust's `Hash for str` appends (characters are modelled at scalar-value
granularity). -/
def hashFeed : Fragment → List Nat
  | .index n => [0, n]
  | .name s => 1 :: (s.map Char.toNat ++ [255])
  | .parent => [2]

/-! ## Paths (src/path.rs lines 22 to 98) -/

/-- Embedding of `struct Path` (src/path.rs lines 24 to 27). -/
structure Path where
  fragments : List Fragment
  is_relative : Bool
deriving DecidableEq

/-- Embedding of Rust's `str::split('.')`: splitting on every dot, keeping
empty tokens, and producing one (empty) token for the empty string. -/
def splitOnDot : List Char → List (List Char)
  | [] => [[]]
  | c :: cs =>
    if c = '.' then [] :: splitOnDot cs
    else
      match splitOnDot cs with
      | [] => [[c]]
      | t :: ts => (c :: t) :: ts

/-- Embedding of joining tokens with `.` (Rust's `join(".")`,
src/path.rs line 87). -/
def joinDot : List (List Char) → List Char
  | [] => []
  | t :: ts =>
    match ts with
    | [] => t
    | _ :: _ => t ++ '.' :: joinDot ts

/-- Classification of one dot-separated token, embedding the closure at
src/path.rs lines 58 to 67: a token that parses as `usize` becomes an index,
otherwise `^` becomes `Parent` and anything else becomes a name. -/
def tokenToFragment (t : List Char) : Fragment :=
  match rustParseUsize t with
  | some n => .index n
  | none => if t = ['^'] then .parent else .name t

/-- Removal of the leading dot of a relative path string, embedding
src/path.rs lines 45 to 54: `starts_with('.')` is `head? = some '.'` and the
character iterator's `next` drops the head. -/
def pathStripDot (s : List Char) : List Char :=
  if s.head? = some '.' then s.tail else s

/-- Embedding of `Path::from_str` (src/path.rs lines 40 to 71): the empty
string yields no path; a leading dot marks the path relative and is removed;
the remainder is split on dots and each token classified. -/
def pathFromStr (s : List Char) : Option Path :=
  if s = [] then none
  else some ⟨(splitOnDot (pathStripDot s)).map tokenToFragment,
             decide (s.head? = some '.')⟩

/-- Canonicity check on one token: if the token parses as `usize` it must be
the canonical decimal rendering of its value (no leading zeros, no `+` sign).
This is the precondition under which parse/render round-trips. -/
def canonicalToken (t : List Char) : Bool :=
  match rustParseUsize t with
  | some n => decide (t = natChars n)
  | none => true

/-- Token classification as the claim literally states it: a pure-digit
token becomes an index (of its decimal value), `^` becomes `Parent`, and any
other token becomes a name. -/
def tokenFragmentClaim (t : List Char) : Fragment :=
  if t ≠ [] ∧ t.all Char.isDigit = true then .index (digitsVal t)
  else if t = ['^'] then .parent else .name t

/-- Token classification as amended: a token consisting of an optional
leading `+` followed by one or more digits whose value fits in `usize`
becomes an index, `^` becomes `Parent`, and any other token becomes a
name. -/
def tokenFragmentAmended (t : List Char) : Fragment :=
  if rustUsizeBody t ≠ [] ∧ (rustUsizeBody t).all Char.isDigit = true ∧
      digitsVal (rustUsizeBody t) ≤ USIZE_MAX then
    .index (digitsVal (rustUsizeBody t))
  else if t = ['^'] then .parent else .name t

/-- Embedding of `impl fmt::Display for Path` (src/path.rs lines 74 to 90):
a leading dot when relative, then the rendered fragments joined with dots. -/
def pathRender (p : Path) : List Char :=
  (if p.is_relative then ['.'] else []) ++ joinDot (p.fragments.map fragmentRender)

/-! ## Content node payloads

`src/runtime/mod.rs` declares the node kinds; the payload modules other than
`container` and `control_command` are not present under src/, so their types
are modelled from the specification's data-model section. -/

/-- Embedding of `enum ControlCommand` (src/runtime/control_command.rs
lines 6 to 101); the `End` variant is named `endOfStory` here because `end`
is reserved in Lean. -/
inductive ControlCommand where
  | evalStart
  | evalOutput
  | evalEnd
  | duplicate
  | popEvaluatedValue
  | popFunction
  | popTunnel
  | beginString
  | endString
  | noOp
  | choiceCount
  | turnsSince
  | readCount
  | random
  | seedRandom
  | visitIndex
  | sequenceShuffleIndex
  | startThread
  | done
  | endOfStory
  | listFromInt
  | listRange
deriving DecidableEq

/-- Modelled from the spec: a divert target is "a target path or resolved
variable-named target" (spec section 3); the `divert.rs` module is not under
src/, and the runtime_graph tests construct `TargetType::VarName`. -/
inductive TargetType where
  | pathTarget (p : Path)
  | varName (s : List Char)
deriving DecidableEq

/-- Modelled from the spec: a Divert carries a "target path or resolved
variable-named target, plus tunnel/function/external-call qualifiers"; only
the target is needed by the claims, matching the `target` field the
runtime_graph tests read. -/
structure Divert where
  target : TargetType
deriving DecidableEq

/-- Modelled from the spec: a Choice Point is the "definition of a choice's
path, conditions, and display flags" (spec section 3). -/
structure ChoicePoint where
  path_on_choice : Path
  flags : Nat
deriving DecidableEq

/-- Modelled from the spec: Glue is a "join marker suppressing surrounding
whitespace/newlines" with no payload relevant to the claims. -/
structure Glue where
deriving DecidableEq

/-- Modelled from the spec: a Native Function Call is an "operator name +
arity" (spec section 3). -/
structure NativeFunctionCall where
  name : List Char
  arity : Nat
deriving DecidableEq

/-- Modelled from the spec: a Tag is a "free-form annotation string". -/
structure Tag where
  text : List Char
deriving DecidableEq

/-- Modelled from the spec: a Value is a "typed literal: integer, float,
string, list, divert-target"; the float payload is represented opaquely by
its bit pattern and the list payload by (item name, item value) pairs, since
no claim inspects value payloads. -/
inductive Value where
  | intValue (i : Int)
  | floatValue (bits : Nat)
  | stringValue (s : List Char)
  | listValue (items : List (List Char × Int))
  | divertTargetValue (p : Path)
deriving DecidableEq

/-- Modelled from the spec: a Variable Assignment node names the variable
being assigned (spec section 3). -/
structure VariableAssignment where
  name : List Char
deriving DecidableEq

/-- Modelled from the spec: a Variable Reference node names the variable
being read (spec section 3). -/
structure VariableReference where
  name : List Char
deriving DecidableEq

/-- Modelled from the spec: a ReadCount node addresses the visit counter of
a path (spec sections 3 and 4.3). -/
structure ReadCount where
  target : Path
deriving DecidableEq

/-! ## Runtime objects and containers
(src/runtime/mod.rs lines 24 to 38, src/runtime/container.rs lines 8 to 17) -/

mutual

/-- Embedding of `enum RuntimeObject` (src/runtime/mod.rs lines 24 to 38);
the `Rc<Container>` indirection is dropped since the graph is immutable. -/
inductive RuntimeObject where
  | choice (c : ChoicePoint)
  | container (c : Container)
  | controlCommand (c : ControlCommand)
  | divert (d : Divert)
  | glue (g : Glue)
  | nativeFunctionCall (n : NativeFunctionCall)
  | tag (t : Tag)
  | value (v : Value)
  | variableAssignment (v : VariableAssignment)
  | variableReference (v : VariableReference)
  | readCount (r : ReadCount)
  | void
  | null

/-- Embedding of `struct Container` (src/runtime/container.rs lines 8 to 17);
the `HashMap` of named subelements is modelled as an association list. -/
inductive Container where
  | mk (content : List RuntimeObject)
       (named_subelements : List (List Char × RuntimeObject))
       (name : Option (List Char))
       (visits_should_be_counted : Bool)
       (turn_index_should_be_counted : Bool)
       (count_at_start_only : Bool)

end

/-- Field accessor for `Container.content`. -/
def Container.content : Container → List RuntimeObject
  | .mk v _ _ _ _ _ => v

/-- Field accessor for `Container.named_subelements`. -/
def Container.named_subelements : Container → List (List Char × RuntimeObject)
  | .mk _ v _ _ _ _ => v

/-- Field accessor for `Container.name`. -/
def Container.name : Container → Option (List Char)
  | .mk _ _ v _ _ _ => v

/-- Field accessor for `Container.visits_should_be_counted`. -/
def Container.visits_should_be_counted : Container → Bool
  | .mk _ _ _ v _ _ => v

/-- Field accessor for `Container.turn_index_should_be_counted`. -/
def Container.turn_index_should_be_counted : Container → Bool
  | .mk _ _ _ _ v _ => v

/-- Field accessor for `Container.count_at_start_only`. -/
def Container.count_at_start_only : Container → Bool
  | .mk _ _ _ _ _ v => v

/-- Embedding of `Container::count_flags` (src/runtime/container.rs lines 53
to 73), including its use of `&=` on an accumulator initialised to zero and
the final `0x4` special case, exactly as written. -/
def count_flags (c : Container) : Nat :=
  let f0 : Nat := 0
  let f1 := if c.visits_should_be_counted then f0 &&& 0x1 else f0
  let f2 := if c.turn_index_should_be_counted then f1 &&& 0x2 else f1
  let f3 := if c.count_at_start_only then f2 &&& 0x4 else f2
  if f3 = 0x4 then 0 else f3

/-- Embedding of `Container::set_count_flags` (src/runtime/container.rs
lines 75 to 79): each counting field is set from one bit of the flags byte. -/
def set_count_flags (c : Container) (flags : Nat) : Container :=
  match c with
  | .mk content named nm _ _ _ =>
    .mk content named nm
      (decide (flags &&& 0x1 > 0))
      (decide (flags &&& 0x2 > 0))
      (decide (flags &&& 0x4 > 0))

/-- Embedding of `RuntimeObject::name` (src/runtime/mod.rs lines 73 to 79):
only containers have a name. -/
def RuntimeObject.name : RuntimeObject → Option (List Char)
  | .container c => c.name
  | _ => none

/-- Embedding of `Container::search_by_name` (src/runtime/container.rs
lines 114 to 124): the first element of `content` whose name equals the
query. -/
def search_by_name (c : Container) (n : List Char) : Option RuntimeObject :=
  c.content.find? (fun o =>
    match o.name with
    | some other_name => decide (other_name = n)
    | none => false)

/-! ## Wire decoding (src/runtime/container.rs lines 19 to 46 and 127 to 163) -/

/-- Embedding of `struct ContainerData` (src/runtime/container.rs lines 26
to 34): the trailing metadata object with optional name, flags byte
(defaulting to zero) and the remaining keys as named subelements. -/
structure ContainerData where
  name : Option (List Char)
  flags : Nat
  named_subelements : List (List Char × RuntimeObject)

/-- Embedding of `ContainerData::default()` as produced by the derived
`Default` (src/runtime/container.rs line 26): no name, zero flags, no named
subelements. -/
def containerDataDefault : ContainerData := ⟨none, 0, []⟩

/-- Embedding of `enum ContainerElement` (src/runtime/container.rs lines 19
to 24): an ordinary content node, or the special final element (`null` or a
metadata object). -/
inductive ContainerElement where
  | runtimeObject (o : RuntimeObject)
  | specialFinal (d : Option ContainerData)

/-- Embedding of `enum ContainerError` (src/runtime/container.rs lines 36
to 46). -/
inductive ContainerError where
  | unexpectedRuntimeObject (o : RuntimeObject)
  | noElements
  | unexpectedNull
  | unexpectedMapObject (d : ContainerData)

/-- Embedding of the `collect::<Result<_, _>>()` over the non-terminal
elements (src/runtime/container.rs lines 141 to 150): each element must be an
ordinary content node; the first misplaced `null` or metadata object aborts
with its error. -/
def collectContent : List ContainerElement → Except ContainerError (List RuntimeObject)
  | [] => .ok []
  | .runtimeObject o :: rest => (collectContent rest).map (o :: ·)
  | .specialFinal none :: _ => .error .unexpectedNull
  | .specialFinal (some d) :: _ => .error (.unexpectedMapObject d)

/-- Embedding of `impl TryFrom<Vec<ContainerElement>> for Container`
(src/runtime/container.rs lines 127 to 163): the last element must be the
special final form (with `null` standing for default metadata), the elements
before it become the content, and the three counting flags are read from
bits `0x1`, `0x2` and `0x4` of the flags byte. -/
def containerTryFrom (elements : List ContainerElement) : Except ContainerError Container :=
  match elements.getLast? with
  | none => .error .noElements
  | some (.runtimeObject o) => .error (.unexpectedRuntimeObject o)
  | some (.specialFinal od) =>
    let data := od.getD containerDataDefault
    match collectContent elements.dropLast with
    | .error e => .error e
    | .ok content =>
      .ok (.mk content data.named_subelements data.name
        (decide (data.flags &&& 0x1 > 0))
        (decide (data.flags &&& 0x2 > 0))
        (decide (data.flags &&& 0x4 > 0)))

/-! ## Graph resolution (src/runtime_graph.rs lines 11 to 52) -/

/-- Embedding of `struct RuntimeGraph` (src/runtime_graph.rs lines 11
to 17). -/
structure RuntimeGraph where
  ink_version : Nat
  root_container : Container

/-- Outcome of a resolution walk.  `ok` and `fail` embed `Some` and `None`
from `resolve_path`; `parentUnhandled` marks a `Fragment::Parent` reached by
the walk, for which the `match fragment` at src/runtime_graph.rs lines 26
to 47 provides no arm at all (as written, that match is non-exhaustive and
the source gives the case no behaviour). -/
inductive ResolveResult where
  | ok (o : RuntimeObject)
  | fail
  | parentUnhandled

/-- Embedding of the fragment loop of `RuntimeGraph::resolve_path`
(src/runtime_graph.rs lines 21 to 50): `cur` is `current_container`, `acc`
is the `runtime_object` accumulator; an index fragment takes `content[i]`,
a name fragment searches by name, a failed lookup returns `None`
immediately, and descending updates `cur` only when the child is itself a
container. -/
def resolveLoop (cur : Container) (acc : Option RuntimeObject) :
    List Fragment → ResolveResult
  | [] =>
    match acc with
    | some o => .ok o
    | none => .fail
  | .index i :: rest =>
    match cur.content.get? i with
    | some child =>
      resolveLoop
        (match child with
         | .container c => c
         | _ => cur)
        (some child) rest
    | none => .fail
  | .name n :: rest =>
    match search_by_name cur n with
    | some child =>
      resolveLoop
        (match child with
         | .container c => c
         | _ => cur)
        (some child) rest
    | none => .fail
  | .parent :: _ => .parentUnhandled

/-- Embedding of `RuntimeGraph::resolve_path` (src/runtime_graph.rs lines 20
to 51): walk the fragments starting from the root container with an empty
accumulator. -/
def resolvePath (g : RuntimeGraph) (p : Path) : ResolveResult :=
  resolveLoop g.root_container none p.fragments

/-! ## Test graphs
The two story graphs constructed by the tests at src/runtime_graph.rs
lines 58 to 126: nested named containers `a > b > c`, and the same shape
with a Divert as the second child of `b`. -/

/-- Innermost container named `c` (empty content, default flags). -/
def containerC : Container := .mk [] [] (some ['c']) false false false

/-- Container named `b` holding only `c`. -/
def containerB1 : Container :=
  .mk [.container containerC] [] (some ['b']) false false false

/-- Container named `a` holding only `b` (name-resolution test). -/
def containerA1 : Container :=
  .mk [.container containerB1] [] (some ['a']) false false false

/-- Graph used by `resolve_path_by_name_test`. -/
def testGraph1 : RuntimeGraph :=
  ⟨17, .mk [.container containerA1] [] none false false false⟩

/-- The divert with a variable-named target constructed by
`resolve_path_by_index_test`. -/
def divertMytarget : Divert := ⟨.varName ("mytarget".toList)⟩

/-- Container named `b` whose second child (index 1) is a divert. -/
def containerB2 : Container :=
  .mk [.container containerC, .divert divertMytarget] [] (some ['b']) false false false

/-- Container named `a` holding the two-child `b` (index-resolution test). -/
def containerA2 : Container :=
  .mk [.container containerB2] [] (some ['a']) false false false

/-- Graph used by `resolve_path_by_index_test`. -/
def testGraph2 : RuntimeGraph :=
  ⟨17, .mk [.container containerA2] [] none false false false⟩

/-! ## Lemmas about splitting and joining path strings -/

/-- Splitting never produces an empty token list. -/
theorem splitOnDot_ne_nil (s : List Char) : splitOnDot s ≠ [] := by
  cases s with
  | nil => simp [splitOnDot]
  | cons c cs =>
    simp only [splitOnDot]
    by_cases hc : c = '.'
    · simp [hc]
    · simp only [if_neg hc]
      cases h : splitOnDot cs <;> simp

/-- Joining the tokens of a split string restores the string. -/
theorem joinDot_splitOnDot (s : List Char) : joinDot (splitOnDot s) = s := by
  induction s with
  | nil => rfl
  | cons c cs ih =>
    by_cases hc : c = '.'
    · subst hc
      simp only [splitOnDot, if_pos rfl]
      obtain ⟨t, ts, h⟩ : ∃ t ts, splitOnDot cs = t :: ts := by
        cases h : splitOnDot cs with
        | nil => exact absurd h (splitOnDot_ne_nil cs)
        | cons t ts => exact ⟨t, ts, rfl⟩
      rw [h] at ih ⊢
      simpa [joinDot] using ih
    · simp only [splitOnDot, if_neg hc]
      cases h : splitOnDot cs with
      | nil => exact absurd h (splitOnDot_ne_nil cs)
      | cons t ts =>
        rw [h] at ih
        cases ts with
        | nil => simpa [joinDot] using ih
        | cons u us => simpa [joinDot] using ih

/-- A canonical token survives classification followed by rendering. -/
theorem canonicalToken_render (t : List Char) (h : canonicalToken t = true) :
    fragmentRender (tokenToFragment t) = t := by
  unfold canonicalToken at h
  unfold tokenToFragment
  cases hp : rustParseUsize t with
  | some n =>
    rw [hp] at h
    simp only [decide_eq_true_eq] at h
    simp [fragmentRender, h]
  | none =>
    by_cases ht : t = ['^'] <;> simp [hp, ht, fragmentRender]

/-- C2 (corrected form): for every non-empty path string all of whose
`usize`-parseable tokens are canonical decimal (no leading zeros, no `+`
sign), rendering the parsed path reproduces the string exactly. -/
theorem path_roundtrip_canonical (s : List Char) (h0 : s ≠ [])
    (hcanon : (splitOnDot (pathStripDot s)).all canonicalToken = true) :
    (pathFromStr s).map pathRender = some s := by
  unfold pathFromStr
  rw [if_neg h0, Option.map_some']
  have hts : ((splitOnDot (pathStripDot s)).map tokenToFragment).map fragmentRender
      = splitOnDot (pathStripDot s) := by
    rw [List.map_map]
    have : ∀ t ∈ splitOnDot (pathStripDot s),
        (fragmentRender ∘ tokenToFragment) t = id t := by
      intro t ht
      simp only [List.all_eq_true] at hcanon
      exact canonicalToken_render t (hcanon t ht)
    rw [List.map_congr_left this, List.map_id]
  unfold pathRender
  simp only [hts, joinDot_splitOnDot]
  by_cases hh : s.head? = some '.'
  · obtain ⟨c, cs⟩ : ∃ c cs, s = c :: cs := by
      cases s with
      | nil => exact absurd rfl h0
      | cons c cs => exact ⟨c, cs, rfl⟩
    obtain ⟨cs, rfl⟩ := cs
    have hc : c = '.' := by simpa using hh
    subst hc
    simp [pathStripDot, hh]
  · simp [pathStripDot, hh]

/-- Witness for `path_roundtrip_canonical` at the test string of
src/path.rs line 114. -/
theorem path_roundtrip_canonical_witness :
    (pathFromStr ("0.g-0.2.$r1".toList)).map pathRender
      = some ("0.g-0.2.$r1".toList) :=
  path_roundtrip_canonical ("0.g-0.2.$r1".toList) (by decide) (by decide)

/-- C2 (counterexample): the string `01` is a dot-separated token string
that is syntactically valid under the spec's grammar (a pure-digit token),
but rendering the parsed path yields `1`, not `01`. -/
theorem path_roundtrip_counterexample :
    ("01".toList).all Char.isDigit = true ∧
    (pathFromStr ("01".toList)).map pathRender = some ("1".toList) ∧
    (pathFromStr ("01".toList)).map pathRender ≠ some ("01".toList) := by
  decide

/-! ## Token grammar -/

/-- The source's token classification agrees with the amended grammar:
optional `+`, one or more digits, value within `usize` range gives an index;
`^` gives `Parent`; anything else a name. -/
theorem tokenToFragment_eq_amended (t : List Char) :
    tokenToFragment t = tokenFragmentAmended t := by
  unfold tokenToFragment tokenFragmentAmended rustParseUsize
  by_cases h : rustUsizeBody t ≠ [] ∧ (rustUsizeBody t).all Char.isDigit = true ∧
      digitsVal (rustUsizeBody t) ≤ USIZE_MAX
  · rw [if_pos h, if_pos h]
  · rw [if_neg h, if_neg h]

/-- C9 (corrected form): parsing a non-empty path string sets the relative
flag exactly when the string starts with a dot (the dot producing no
fragment), and classifies every dot-separated token of the remainder by the
amended grammar `tokenFragmentAmended`. -/
theorem token_grammar_amended (s : List Char) (h0 : s ≠ []) :
    pathFromStr s
      = some ⟨(splitOnDot (pathStripDot s)).map tokenFragmentAmended,
              decide (s.head? = some '.')⟩ := by
  unfold pathFromStr
  rw [if_neg h0]
  have : (splitOnDot (pathStripDot s)).map tokenToFragment
      = (splitOnDot (pathStripDot s)).map tokenFragmentAmended :=
    List.map_congr_left (fun t _ => tokenToFragment_eq_amended t)
  rw [this]

/-- Witness for `token_grammar_amended` on a relative path string mixing all
three token kinds. -/
theorem token_grammar_amended_witness :
    pathFromStr (".^.7.x".toList)
      = some ⟨(splitOnDot (pathStripDot (".^.7.x".toList))).map tokenFragmentAmended,
              decide ((".^.7.x".toList).head? = some '.')⟩ :=
  token_grammar_amended (".^.7.x".toList) (by decide)

/-- C9 (counterexample): a pure-digit token of twenty-one nines does not fit
in `usize`, so the parser classifies it as a name, while the claim's grammar
classifies every pure-digit token as an index. -/
theorem token_grammar_counterexample :
    (List.replicate 21 '9').all Char.isDigit = true ∧
    tokenFragmentClaim (List.replicate 21 '9')
      = .index (digitsVal (List.replicate 21 '9')) ∧
    tokenToFragment (List.replicate 21 '9') = .name (List.replicate 21 '9') ∧
    pathFromStr (List.replicate 21 '9')
      = some ⟨[.name (List.replicate 21 '9')], false⟩ := by
  refine ⟨by decide, by decide, by decide, by decide⟩

/-! ## Fragment equality and hashing -/

/-- Characters are determined by their scalar value. -/
theorem char_toNat_injective : Function.Injective Char.toNat := by
  intro a b h
  have ha := Char.ofNat_toNat a
  have hb := Char.ofNat_toNat b
  rw [← ha, ← hb, h]

/-- C3 (corrected form): the derived equality and hashing on fragments are
structural, and the hasher input is a complete invariant of a fragment: two
fragments feed identical hash data exactly when they are equal. -/
theorem fragment_structural_eq_hash (a b : Fragment) :
    hashFeed a = hashFeed b ↔ a = b := by
  constructor
  · intro h
    cases a with
    | index n =>
      cases b with
      | index m => simpa [hashFeed] using h
      | name s2 => simp [hashFeed] at h
      | parent => simp [hashFeed] at h
    | name s =>
      cases b with
      | index m => simp [hashFeed] at h
      | name s2 =>
        simp only [hashFeed, List.cons.injEq, true_and] at h
        have h2 := List.append_cancel_right h
        have h3 := List.map_injective_iff.mpr char_toNat_injective h2
        rw [h3]
      | parent => simp [hashFeed] at h
    | parent =>
      cases b with
      | index m => simp [hashFeed] at h
      | name s2 => simp [hashFeed] at h
      | parent => rfl
  · intro h
    rw [h]

/-- C3 (counterexample): `Index(1)` and `Name("1")` render to the same text
but are structurally unequal and feed different hash data. -/
theorem fragment_textual_eq_counterexample :
    fragmentRender (.index 1) = fragmentRender (.name ['1']) ∧
    Fragment.index 1 ≠ Fragment.name ['1'] ∧
    hashFeed (.index 1) ≠ hashFeed (.name ['1']) := by
  decide

/-! ## Container flag packing -/

/-- C1 (evaluating the bug): because `count_flags` accumulates with `&=`
into an accumulator initialised to zero, it returns `0` for every container,
so the pack-then-unpack round trip forces all three counting flags to
`false` regardless of their original values. -/
theorem count_flags_and_bug (c : Container) :
    count_flags c = 0 ∧
    (set_count_flags c (count_flags c)).visits_should_be_counted = false ∧
    (set_count_flags c (count_flags c)).turn_index_should_be_counted = false ∧
    (set_count_flags c (count_flags c)).count_at_start_only = false := by
  have h0 : count_flags c = 0 := by
    unfold count_flags
    simp
  refine ⟨h0, ?_, ?_, ?_⟩ <;>
    · rw [h0]
      cases c with
      | mk content named nm v t s =>
        simp [set_count_flags, Container.visits_should_be_counted,
          Container.turn_index_should_be_counted, Container.count_at_start_only]

set_option maxRecDepth 8192 in
/-- C10: both sites that read the wire flags byte — `set_count_flags` and
the flags handling inside `TryFrom` decoding — inspect only bits `0x1`,
`0x2` and `0x4`, so every flags byte acts exactly like its value modulo 8. -/
theorem flags_byte_mod8 (c : Container) (f : Fin 256) :
    set_count_flags c f.val = set_count_flags c (f.val % 8) ∧
    ∀ (nm : Option (List Char)) (named : List (List Char × RuntimeObject)),
      containerTryFrom [.specialFinal (some ⟨nm, f.val, named⟩)]
        = containerTryFrom [.specialFinal (some ⟨nm, f.val % 8, named⟩)] := by
  have key : ∀ g : Fin 256,
      (decide (g.val &&& 1 > 0) = decide (g.val % 8 &&& 1 > 0)) ∧
      (decide (g.val &&& 2 > 0) = decide (g.val % 8 &&& 2 > 0)) ∧
      (decide (g.val &&& 4 > 0) = decide (g.val % 8 &&& 4 > 0)) := by
    decide
  obtain ⟨k1, k2, k4⟩ := key f
  constructor
  · cases c with
    | mk content named nm v t s =>
      simp only [set_count_flags]
      rw [k1, k2, k4]
  · intro nm named
    have hdec : ∀ d : ContainerData, containerTryFrom [.specialFinal (some d)]
        = .ok (.mk [] d.named_subelements d.name
            (decide (d.flags &&& 0x1 > 0))
            (decide (d.flags &&& 0x2 > 0))
            (decide (d.flags &&& 0x4 > 0))) := fun d => rfl
    rw [hdec, hdec]
    dsimp only
    rw [k1, k2, k4]

/-! ## Wire decoding -/

/-- C4: decoding `[A, B, null]` yields content `[A, B]`, no name, empty
named subelements and all three counting flags `false`; decoding
`[A, {#n: x, #f: 3}]` yields content `[A]`, name `x`, visits-counted and
turn-index-counted `true`, count-at-start-only `false`. -/
theorem wire_decoding_positive (A B : RuntimeObject) :
    containerTryFrom [.runtimeObject A, .runtimeObject B, .specialFinal none]
      = .ok (.mk [A, B] [] none false false false) ∧
    containerTryFrom [.runtimeObject A, .specialFinal (some ⟨some ['x'], 3, []⟩)]
      = .ok (.mk [A] [] (some ['x']) true true false) :=
  ⟨rfl, rfl⟩

/-- Prefixing ordinary content nodes maps the collected content through
list prepending (the `collect` scans elements left to right). -/
theorem collectContent_map_append (pre : List RuntimeObject)
    (rest : List ContainerElement) :
    collectContent (pre.map ContainerElement.runtimeObject ++ rest)
      = (collectContent rest).map (pre ++ ·) := by
  induction pre with
  | nil =>
    cases h : collectContent rest <;> simp [h, Except.map]
  | cons a as ih =>
    simp only [List.map_cons, List.cons_append, collectContent, List.append_eq]
    rw [ih]
    cases h : collectContent rest <;> simp [Except.map]

/-- C5: the decoder fails with `NoElements` on the empty array, with
`UnexpectedNull` or `UnexpectedMapObject` when a non-terminal element is a
bare null or metadata object (whatever well-formed elements surround it),
and with `UnexpectedRuntimeObject` when the terminal element is an ordinary
content node; the four errors are pairwise distinct and none of these inputs
decodes to a container. -/
theorem wire_decoding_failure_modes :
    containerTryFrom [] = .error .noElements
    ∧ (∀ (pre : List RuntimeObject) (mid : List ContainerElement)
          (d : Option ContainerData),
        containerTryFrom (pre.map ContainerElement.runtimeObject
            ++ ContainerElement.specialFinal none :: mid
            ++ [ContainerElement.specialFinal d])
          = .error .unexpectedNull)
    ∧ (∀ (pre : List RuntimeObject) (mid : List ContainerElement)
          (dd : ContainerData) (d : Option ContainerData),
        containerTryFrom (pre.map ContainerElement.runtimeObject
            ++ ContainerElement.specialFinal (some dd) :: mid
            ++ [ContainerElement.specialFinal d])
          = .error (.unexpectedMapObject dd))
    ∧ (∀ (pre : List ContainerElement) (o : RuntimeObject),
        containerTryFrom (pre ++ [.runtimeObject o])
          = .error (.unexpectedRuntimeObject o))
    ∧ ContainerError.noElements ≠ ContainerError.unexpectedNull
    ∧ (∀ dd, ContainerError.noElements ≠ ContainerError.unexpectedMapObject dd)
    ∧ (∀ o, ContainerError.unexpectedRuntimeObject o ≠ ContainerError.noElements)
    ∧ (∀ o, ContainerError.unexpectedRuntimeObject o ≠ ContainerError.unexpectedNull)
    ∧ (∀ o dd, ContainerError.unexpectedRuntimeObject o
        ≠ ContainerError.unexpectedMapObject dd)
    ∧ (∀ dd, ContainerError.unexpectedNull ≠ ContainerError.unexpectedMapObject dd) := by
  have hlast : ∀ (init : List ContainerElement) (x : ContainerElement),
      (init ++ [x]).getLast? = some x ∧ (init ++ [x]).dropLast = init :=
    fun init x => ⟨List.getLast?_concat init, List.dropLast_concat⟩
  refine ⟨rfl, ?_, ?_, ?_, ?_, ?_, ?_, ?_, ?_, ?_⟩
  · intro pre mid d
    have hsplit : pre.map ContainerElement.runtimeObject
        ++ ContainerElement.specialFinal none :: mid
        ++ [ContainerElement.specialFinal d]
        = (pre.map ContainerElement.runtimeObject
            ++ ContainerElement.specialFinal none :: mid)
          ++ [ContainerElement.specialFinal d] := by
      simp
    rw [hsplit]
    obtain ⟨h1, h2⟩ := hlast (pre.map ContainerElement.runtimeObject
        ++ ContainerElement.specialFinal none :: mid) (ContainerElement.specialFinal d)
    unfold containerTryFrom
    rw [h1, h2, collectContent_map_append]
    rfl
  · intro pre mid dd d
    have hsplit : pre.map ContainerElement.runtimeObject
        ++ ContainerElement.specialFinal (some dd) :: mid
        ++ [ContainerElement.specialFinal d]
        = (pre.map ContainerElement.runtimeObject
            ++ ContainerElement.specialFinal (some dd) :: mid)
          ++ [ContainerElement.specialFinal d] := by
      simp
    rw [hsplit]
    obtain ⟨h1, h2⟩ := hlast (pre.map ContainerElement.runtimeObject
        ++ ContainerElement.specialFinal (some dd) :: mid)
        (ContainerElement.specialFinal d)
    unfold containerTryFrom
    rw [h1, h2, collectContent_map_append]
    rfl
  · intro pre o
    obtain ⟨h1, h2⟩ := hlast pre (ContainerElement.runtimeObject o)
    unfold containerTryFrom
    rw [h1]
  · intro h
    exact ContainerError.noConfusion h
  · intro dd h
    exact ContainerError.noConfusion h
  · intro o h
    exact ContainerError.noConfusion h
  · intro o h
    exact ContainerError.noConfusion h
  · intro o dd h
    exact ContainerError.noConfusion h
  · intro dd h
    exact ContainerError.noConfusion h

/-! ## Graph resolution -/

/-- C6: on the graphs built by the src/runtime_graph.rs tests, the path
`a.b.c` resolves to the innermost container named `c`, and the path `a.b.1`
resolves to the divert that is the second child of `b`, not to a
container. -/
theorem graph_resolution_examples :
    pathFromStr ("a.b.c".toList)
      = some ⟨[.name ['a'], .name ['b'], .name ['c']], false⟩
    ∧ resolvePath testGraph1 ⟨[.name ['a'], .name ['b'], .name ['c']], false⟩
      = .ok (.container containerC)
    ∧ containerC.name = some ['c']
    ∧ pathFromStr ("a.b.1".toList)
      = some ⟨[.name ['a'], .name ['b'], .index 1], false⟩
    ∧ resolvePath testGraph2 ⟨[.name ['a'], .name ['b'], .index 1], false⟩
      = .ok (.divert divertMytarget) := by
  exact ⟨by decide, rfl, rfl, by decide, rfl⟩

/-- C7 (evaluating the gap): the `match fragment` inside `resolve_path` has
arms only for `Index` and `Name`; a `Parent` fragment reaches a case for
which the source supplies no behaviour at all, on every graph — there is no
stepping up one level. -/
theorem resolve_parent_unhandled :
    (∀ (g : RuntimeGraph) (rest : List Fragment) (r : Bool),
        resolvePath g ⟨.parent :: rest, r⟩ = .parentUnhandled)
    ∧ resolvePath testGraph1 ⟨[.name ['a'], .parent], false⟩ = .parentUnhandled :=
  ⟨fun _ _ _ => rfl, rfl⟩

/-- A walk whose fragments avoid `Parent` never reaches the unhandled
case. -/
theorem resolveLoop_no_parent (fs : List Fragment) :
    ∀ (cur : Container) (acc : Option RuntimeObject), Fragment.parent ∉ fs →
      resolveLoop cur acc fs ≠ .parentUnhandled := by
  induction fs with
  | nil =>
    intro cur acc _
    cases acc <;> simp [resolveLoop]
  | cons f rest ih =>
    intro cur acc hmem
    have hrest : Fragment.parent ∉ rest := fun hr => hmem (List.mem_cons_of_mem f hr)
    cases f with
    | parent => exact absurd (List.mem_cons_self _ _) hmem
    | index i =>
      simp only [resolveLoop]
      cases h : cur.content.get? i with
      | none => simp
      | some child => exact ih _ _ hrest
    | name n =>
      simp only [resolveLoop]
      cases h : search_by_name cur n with
      | none => simp
      | some child => exact ih _ _ hrest

/-- C8 (corrected form): for paths built from index and name fragments only,
resolution is total — it never reaches the unhandled case — and a failing
lookup (an out-of-range index or an unmatched name) makes the whole walk
return no result immediately, even when earlier fragments had already
resolved to an object (the accumulator is discarded, never returned as a
partial result). -/
theorem resolve_failure_totality :
    (∀ (g : RuntimeGraph) (p : Path), Fragment.parent ∉ p.fragments →
        resolvePath g p ≠ .parentUnhandled)
    ∧ (∀ (cur : Container) (acc : Option RuntimeObject) (i : Nat)
          (rest : List Fragment),
        cur.content.get? i = none →
        resolveLoop cur acc (.index i :: rest) = .fail)
    ∧ (∀ (cur : Container) (acc : Option RuntimeObject) (n : List Char)
          (rest : List Fragment),
        search_by_name cur n = none →
        resolveLoop cur acc (.name n :: rest) = .fail) := by
  refine ⟨?_, ?_, ?_⟩
  · intro g p h
    exact resolveLoop_no_parent p.fragments g.root_container none h
  · intro cur acc i rest h
    simp only [resolveLoop]
    rw [h]
  · intro cur acc n rest h
    simp only [resolveLoop]
    rw [h]

/-- Witness for `resolve_failure_totality`: an unmatched name on the test
graph is not the unhandled case, and an out-of-range index fails even with
an already-resolved accumulator. -/
theorem resolve_failure_totality_witness :
    resolvePath testGraph1 ⟨[.name ['z']], false⟩ ≠ .parentUnhandled
    ∧ resolveLoop containerC (some (.container containerC))
        (.index 0 :: [.name ['a']]) = .fail :=
  ⟨resolve_failure_totality.1 testGraph1 ⟨[.name ['z']], false⟩ (by decide),
   resolve_failure_totality.2.1 containerC (some (.container containerC)) 0
     [.name ['a']] rfl⟩

/-- C8 (counterexample to the claim as stated): on a path containing a
`Parent` fragment the resolver does not return "no result" — it reaches the
case for which the source match supplies no behaviour, so the claimed
totality over every path fails. -/
theorem resolve_totality_counterexample :
    resolvePath testGraph1 ⟨[.parent], false⟩ = .parentUnhandled
    ∧ ResolveResult.parentUnhandled ≠ ResolveResult.fail :=
  ⟨rfl, fun h => ResolveResult.noConfusion h⟩

end RinkRuntime
